import Mathlib

/-!
# Verification of the seedcode agent core (SweetRetry/seed-kit)

A shallow embedding, over `List Char` strings, of the parts of the
repository that the specification's testable properties talk about:

* the patch-edit engine (`computeEditDiff` / `applyEdit` in the file-mutation
  module bundled into `apps/seedcode/src/repl.tsx`),
* the full-file writer (`writeFile`, same module),
* the sandboxed command executor (`runBash` in `apps/seedcode/src/tools/bash.ts`
  and `truncateBashOutput` of the bash tool module),
* the retry wrapper (`withRetry` / `classifyError` in `utils/retry.ts`),
* the session store (`saveSession` / `loadSession` / `listSessions` /
  `resolveSessionId` in the sessions module of `apps/seedcode/src/context/index.ts`),
* the read tool's path deny-list (`isDenied` / `readFile` in `tools/read.ts`).

JavaScript strings are modelled as `List Char`; the Node filesystem is an
explicit state value; `JSON.stringify` / `JSON.parse` (an external runtime
service, like the filesystem itself) are parameters constrained by the
hypotheses the JS runtime guarantees.  Machine-level conventions that matter
(`String.prototype.replace` substitution patterns, `String.prototype.split`
counting, `Math.round`) are modelled explicitly.
-/

set_option maxRecDepth 100000

/-- JS strings are modelled as lists of characters. -/
abbrev Str := List Char

/-- `needle` occurs somewhere inside `hay` (JS `String.prototype.includes`). -/
def containsSub (needle hay : Str) : Bool :=
  hay.tails.any (fun t => needle.isPrefixOf t)

/-- JS whitespace class `\s` (ASCII part; shell commands are ASCII in practice). -/
def isJsSpace (c : Char) : Bool :=
  c = ' ' || c = '\t' || c = '\n' || c = '\r' || c = Char.ofNat 11 || c = Char.ofNat 12

/-- JS `.` in a regex: any character except line terminators. -/
def isDotChar (c : Char) : Bool :=
  c ≠ '\n' && c ≠ '\r'

/-- Lowercase a JS string (`String.prototype.toLowerCase`, ASCII part). -/
def strToLower (s : Str) : Str := s.map Char.toLower

/-! ## Bash output truncation (`truncateBashOutput`, bash tool module) -/

/-- `TRUNCATE_HEAD` from the bash tool module. -/
def TRUNCATE_HEAD : Nat := 100

/-- `TRUNCATE_TAIL` from the bash tool module. -/
def TRUNCATE_TAIL : Nat := 50

/-- The marker line injected by `truncateBashOutput`
(template literal `... ${dropped} lines truncated ...`). -/
def truncMarker (dropped : Nat) : Str :=
  "... ".toList ++ (toString dropped).toList ++ " lines truncated ...".toList

/-- `truncateBashOutput(output)`: keep the first 100 and last 50 lines,
injecting a marker with the number of dropped lines.  `output.split('\n')`
is `List.splitOn '\n'`; `join('\n')` is `[('\n')].intercalate`. -/
def truncateBashOutput (output : Str) : Str :=
  if output = [] then output
  else if (output.splitOn '\n').length ≤ TRUNCATE_HEAD + TRUNCATE_TAIL then output
  else
    [('\n')].intercalate
      ((output.splitOn '\n').take TRUNCATE_HEAD ++
        [truncMarker ((output.splitOn '\n').length - TRUNCATE_HEAD - TRUNCATE_TAIL)] ++
        (output.splitOn '\n').drop ((output.splitOn '\n').length - TRUNCATE_TAIL))

/-- C6: for every bash output string, if it has more than 150 lines then
`truncateBashOutput` returns the first 100 lines, one marker line stating how
many lines were truncated, and the last 50 lines; if it has at most 150 lines
the output is returned unmodified. -/
theorem C6_truncateBashOutput (output : Str) :
    (150 < (output.splitOn '\n').length →
      truncateBashOutput output =
        [('\n')].intercalate
          ((output.splitOn '\n').take 100 ++
            [truncMarker ((output.splitOn '\n').length - 150)] ++
            (output.splitOn '\n').drop ((output.splitOn '\n').length - 50))) ∧
    ((output.splitOn '\n').length ≤ 150 → truncateBashOutput output = output) := by
  constructor
  · intro h
    have hne : output ≠ [] := by
      rintro rfl
      simp [List.splitOn, List.splitOnP, List.splitOnP.go] at h
    rw [truncateBashOutput, if_neg hne,
      if_neg (by simp only [TRUNCATE_HEAD, TRUNCATE_TAIL]; omega)]
    simp [TRUNCATE_HEAD, TRUNCATE_TAIL, Nat.sub_sub]
  · intro h
    rw [truncateBashOutput]
    split
    · rfl
    · rw [if_pos (by simpa [TRUNCATE_HEAD, TRUNCATE_TAIL] using h)]

/-- A 200-line output (the claim's concrete large example). -/
def bigOutput : Str := [('\n')].intercalate (List.replicate 200 ['x'])

/-- A 140-line output (the claim's concrete small example). -/
def smallOutput : Str := [('\n')].intercalate (List.replicate 140 ['x'])

/-- Witness for C6: the 200-line output is reduced to the first 100 lines, a
marker stating 50 lines were truncated, and the last 50 lines; the 140-line
output is returned unmodified. -/
theorem C6_truncateBashOutput_witness :
    (150 < (bigOutput.splitOn '\n').length ∧
      truncateBashOutput bigOutput =
        [('\n')].intercalate
          ((bigOutput.splitOn '\n').take 100 ++
            [truncMarker ((bigOutput.splitOn '\n').length - 150)] ++
            (bigOutput.splitOn '\n').drop ((bigOutput.splitOn '\n').length - 50))) ∧
    ((smallOutput.splitOn '\n').length ≤ 150 ∧
      truncateBashOutput smallOutput = smallOutput) :=
  ⟨⟨by decide, (C6_truncateBashOutput bigOutput).1 (by decide)⟩,
    by decide, (C6_truncateBashOutput smallOutput).2 (by decide)⟩

/-! ## Filesystem model

The Node filesystem is an explicit state: a map from absolute paths to file
contents plus the set of created directories.  Writes shadow earlier entries. -/

/-- Filesystem state: files (path, contents) and created directories. -/
structure Fs where
  files : List (Str × Str)
  dirs : List Str
deriving DecidableEq

/-- Look up a file's contents (`fs.readFileSync`, as an `Option`). -/
def fsRead (p : Str) (fs : Fs) : Option Str :=
  (fs.files.find? (fun e => e.1 == p)).map (fun e => e.2)

/-- `fs.writeFileSync(p, d)`. -/
def fsWrite (p : Str) (d : Str) (fs : Fs) : Fs :=
  { fs with files := (p, d) :: fs.files }

/-- `fs.mkdirSync(d, { recursive: true })`. -/
def mkdirp (d : Str) (fs : Fs) : Fs :=
  { fs with dirs := d :: fs.dirs }

/-- `fs.existsSync(p)`: true for files and directories. -/
def existsSync (p : Str) (fs : Fs) : Bool :=
  (fsRead p fs).isSome || fs.dirs.contains p

/-! ## Node `path.posix` model -/

/-- Split a path on `/`. -/
def splitSlash (p : Str) : List Str := p.splitOn '/'

/-- Normalization inside `path.resolve`: drop empty and `.` segments, let
`..` pop the previous segment (or vanish at the root). -/
def normalizeSegs (segs : List Str) : List Str :=
  segs.foldl
    (fun acc seg =>
      if seg = [] || seg = ['.'] then acc
      else if seg = ['.', '.'] then acc.dropLast
      else acc ++ [seg])
    []

/-- Node `path.posix.resolve(base, p)` for an absolute `base` (the execution
root comes from `process.cwd()`, which is absolute).  An absolute `p` ignores
`base`; a relative `p` is joined to it; the result is normalized with no
trailing slash. -/
def resolvePath (base p : Str) : Str :=
  let full := if p.head? = some '/' then p else base ++ ('/' :: p)
  '/' :: [('/')].intercalate (normalizeSegs (splitSlash full))

/-- Node `path.posix.dirname` of an absolute path. -/
def dirname (p : Str) : Str :=
  match (normalizeSegs (splitSlash p)).dropLast with
  | [] => ['/']
  | segs => '/' :: [('/')].intercalate segs

/-! ## JS string primitives used by the edit engine -/

/-- JS `String.prototype.indexOf` for a substring, as an `Option`al index. -/
def indexOfSub (pat : Str) : Str → Option Nat
  | [] => if pat.isPrefixOf [] then some 0 else none
  | c :: rest =>
    if pat.isPrefixOf (c :: rest) then some 0
    else (indexOfSub pat rest).map (fun i => i + 1)

/-- JS `String.prototype.split` for a non-empty separator, with fuel
(`s.length + 1` always suffices): split at each non-overlapping occurrence,
left to right. -/
def jsSplitGo (pat : Str) : Nat → Str → List Str
  | 0, s => [s]
  | fuel + 1, s =>
    match indexOfSub pat s with
    | none => [s]
    | some i => s.take i :: jsSplitGo pat fuel (s.drop (i + pat.length))

/-- JS `String.prototype.split(pat)`.  An empty separator splits into single
characters (so `"".split("")` is `[]`). -/
def jsSplit (pat s : Str) : List Str :=
  if pat = [] then s.map (fun c => [c])
  else jsSplitGo pat (s.length + 1) s

/-- `content.split(oldString).length - 1`, the occurrence count used by the
edit engine (an `Int`: it is `-1` for empty content and empty separator). -/
def splitOccurrences (old content : Str) : Int :=
  (jsSplit old content).length - 1

/-- `GetSubstitution` from the ECMAScript spec, for a string search value (no
capture groups): in the replacement, `$$` yields `$`, `$&` the matched
substring, a dollar followed by a backtick the text before the match, and a
dollar followed by an apostrophe the text after it; anything else is copied
verbatim. -/
def getSubstitution (matched pre suf : Str) : Str → Str
  | '$' :: c :: rest =>
    if c = '$' then '$' :: getSubstitution matched pre suf rest
    else if c = '&' then matched ++ getSubstitution matched pre suf rest
    else if c = Char.ofNat 96 then pre ++ getSubstitution matched pre suf rest
    else if c = Char.ofNat 39 then suf ++ getSubstitution matched pre suf rest
    else '$' :: c :: getSubstitution matched pre suf rest
  | c :: rest => c :: getSubstitution matched pre suf rest
  | [] => []

/-- JS `s.replace(old, new)` with a string pattern: replace the first
occurrence, applying `GetSubstitution` to the replacement text. -/
def jsReplaceFirst (s old new : Str) : Str :=
  match indexOfSub old s with
  | none => s
  | some i =>
    s.take i ++ getSubstitution old (s.take i) (s.drop (i + old.length)) new ++
      s.drop (i + old.length)

/-- Plain substring replacement of the first occurrence — what the spec means
by "byte-identical to manual substring replacement". -/
def literalReplaceOnce (s old new : Str) : Str :=
  match indexOfSub old s with
  | none => s
  | some i => s.take i ++ new ++ s.drop (i + old.length)

/-! ## File mutation engine: patch edits (`applyEdit`) -/

/-- Render a `Nat` as the characters JS would print. -/
def natStr (n : Nat) : Str := (toString n).toList

/-- Render an `Int` as the characters JS would print. -/
def intStr (n : Int) : Str := (toString n).toList

/-- Outcome of `applyEdit`: `{ success, message, diff }` or `{ error }`. -/
inductive EditOutcome where
  | success (message : Str) (removedLines addedLines : List Str)
  | error (msg : Str)
deriving DecidableEq

/-- `applyEdit(filePath, oldString, newString)`: resolve the path, require the
file to exist, count occurrences via `split`, reject unless exactly one,
otherwise `replace` the first occurrence and write the file back.
(`readFileSync` on a directory path would throw in Node; directory targets
are collapsed into the not-found error here, which no claim exercises.) -/
def applyEdit (fs : Fs) (cwd filePath old new : Str) : EditOutcome × Fs :=
  let abs := resolvePath cwd filePath
  match fsRead abs fs with
  | none => (.error ("File not found: ".toList ++ filePath), fs)
  | some content =>
    let occurrences := splitOccurrences old content
    if occurrences ≠ 1 then
      (.error ("Patch cannot be applied: old_string matches ".toList ++
        intStr occurrences ++ " location(s).".toList), fs)
    else
      let newContent := jsReplaceFirst content old new
      let removed := (old.splitOn '\n').length
      let added := (new.splitOn '\n').length
      (.success
        ("Edited ".toList ++ filePath ++ " (+".toList ++ natStr added ++
          " / -".toList ++ natStr removed ++ " lines)".toList)
        (old.splitOn '\n') (new.splitOn '\n'),
        fsWrite abs newContent fs)

/-- The concrete filesystem for the C1 failing input: one file `/proj/a.txt`
whose contents are the single character `a`. -/
def fsC1 : Fs := ⟨[("/proj/a.txt".toList, "a".toList)], []⟩

/-- C1 (failing input): with file contents `a`, the string `a` occurs exactly
once, yet `applyEdit` with replacement `$$` succeeds and leaves the file
containing `$` — not the literal replacement `$$` — because JS
`String.prototype.replace` expands `$$` (and `$&` and friends) in the
replacement text.  So the result is not byte-identical to replacing the
single occurrence of `oldString` with `newString`. -/
theorem C1_applyEdit_dollar_divergence :
    splitOccurrences "a".toList "a".toList = 1 ∧
    literalReplaceOnce "a".toList "a".toList "$$".toList = "$$".toList ∧
    (applyEdit fsC1 "/proj".toList "a.txt".toList "a".toList "$$".toList).1 =
      .success "Edited a.txt (+1 / -1 lines)".toList ["a".toList] ["$$".toList] ∧
    fsRead "/proj/a.txt".toList
      (applyEdit fsC1 "/proj".toList "a.txt".toList "a".toList "$$".toList).2 =
      some "$".toList ∧
    "$".toList ≠ "$$".toList := by
  decide

/-! ## Full-file writer (`writeFile`, file-mutation module) -/

/-- A filesystem operation, as an observable trace element. -/
inductive FsOp where
  | mkdirRec (dir : Str)
  | writeFileSync (path content : Str)
  | renameSync (src dst : Str)
deriving DecidableEq

/-- Whether an operation is a rename. -/
def FsOp.isRen : FsOp → Bool
  | .renameSync _ _ => true
  | _ => false

/-- `writeFile(filePath, content)` from the file-mutation module: resolve the
path, `mkdirSync` the parent directory recursively, then one direct
`writeFileSync` to the target — this is the exact operation trace. -/
def writeFileOps (cwd filePath content : Str) : List FsOp :=
  [.mkdirRec (dirname (resolvePath cwd filePath)),
    .writeFileSync (resolvePath cwd filePath) content]

/-- Modelled from the spec: a trace is an atomic write to `target` when the
content is written only to a temporary sibling distinct from the target which
is then renamed over the target (never a direct write to the target). -/
def atomicWriteTrace (target : Str) (ops : List FsOp) : Bool :=
  ops.any (fun op =>
    match op with
    | .renameSync src dst => dst == target && src != target
    | _ => false) &&
  ops.all (fun op =>
    match op with
    | .writeFileSync p _ => p != target
    | _ => true)

/-- C2: `writeFile` is not atomic.  For every working directory, path and
content, the performed trace is a recursive mkdir followed by one direct
`writeFileSync` to the target: it contains no rename at all, and the
spec-side atomicity predicate rejects it.  (PLAN.md marks the
temp-sibling-plus-rename scheme as implemented, but the code performs a
single direct write.) -/
theorem C2_writeFile_not_atomic (cwd filePath content : Str) :
    writeFileOps cwd filePath content =
      [.mkdirRec (dirname (resolvePath cwd filePath)),
        .writeFileSync (resolvePath cwd filePath) content] ∧
    (writeFileOps cwd filePath content).all (fun op => !op.isRen) = true ∧
    atomicWriteTrace (resolvePath cwd filePath) (writeFileOps cwd filePath content) =
      false := by
  refine ⟨rfl, by simp [writeFileOps, FsOp.isRen], ?_⟩
  simp [atomicWriteTrace, writeFileOps]

/-! ## Sandboxed command executor (`runBash`, tools/bash.ts)

The nine `DENYLIST_PATTERNS` regular expressions are compiled by hand into
executable matchers; all of them are deterministic except the `.*`/`.+`
pieces, which become an explicit search over split points (`scanDot`). -/

/-- Match a literal regex piece, returning the remaining input. -/
def lit (w : Str) (s : Str) : Option Str :=
  if w.isPrefixOf s then some (s.drop w.length) else none

/-- Greedy `\s+`: consume one or more whitespace characters. -/
def ws1 (s : Str) : Option Str :=
  let rest := s.dropWhile isJsSpace
  if rest.length < s.length then some rest else none

/-- Greedy `\s*`: consume zero or more whitespace characters. -/
def wsAny (s : Str) : Str := s.dropWhile isJsSpace

/-- `(?:\s|$)`: end of input or a whitespace character next. -/
def endOrSpace (s : Str) : Bool :=
  match s with
  | [] => true
  | c :: _ => isJsSpace c

/-- `.*k`: some split of the input into dot-characters followed by a suffix
accepted by the continuation `k`. -/
def scanDot (k : Str → Bool) : Str → Bool
  | [] => k []
  | c :: rest => k (c :: rest) || (isDotChar c && scanDot k rest)

/-- `/rm\s+-rf\s+T(?:\s|$)/` anchored at the start of `s`, for a literal
target `T` (one of `/`, `~`, `$HOME`). -/
def rmPatAt (target : Str) (s : Str) : Bool :=
  (((((lit "rm".toList s).bind ws1).bind (lit "-rf".toList)).bind ws1).bind
      (lit target)).elim false endOrSpace

/-- `/C[^|]+\|\s*(?:ba)?sh/` anchored at the start of `s`, for `C` one of
`curl`, `wget`. -/
def pipeShAt (cmd0 : Str) (s : Str) : Bool :=
  match lit cmd0 s with
  | none => false
  | some s1 =>
    let taken := s1.takeWhile (fun c => c ≠ '|')
    if taken.isEmpty then false
    else
      match lit "|".toList (s1.drop taken.length) with
      | none => false
      | some s2 =>
        ((lit "ba".toList (wsAny s2)).bind (lit "sh".toList)).isSome ||
          (lit "sh".toList (wsAny s2)).isSome

/-- The part `:\|:&?\s*\}.*:` of the fork-bomb pattern, anchored at `s`. -/
def forkBombTail (s : Str) : Bool :=
  match lit ":|:".toList s with
  | none => false
  | some s1 =>
    (match lit "\x7d".toList (wsAny s1) with
      | none => false
      | some s2 => scanDot (fun s3 => (lit ":".toList s3).isSome) s2) ||
    (match lit "&".toList s1 with
      | none => false
      | some s1' =>
        match lit "\x7d".toList (wsAny s1') with
        | none => false
        | some s2 => scanDot (fun s3 => (lit ":".toList s3).isSome) s2)

/-- `/:\s*\(\s*\)\s*\{.*:\|:&?\s*\}.*:/` (fork bomb) anchored at `s`. -/
def forkBombAt (s : Str) : Bool :=
  match lit ":".toList s with
  | none => false
  | some s1 =>
    match lit "(".toList (wsAny s1) with
    | none => false
    | some s2 =>
      match lit ")".toList (wsAny s2) with
      | none => false
      | some s3 =>
        match lit "\x7b".toList (wsAny s3) with
        | none => false
        | some s4 => scanDot forkBombTail s4

/-- `/>\s*\/dev\/sd[a-z]/` anchored at `s`. -/
def devSdAt (s : Str) : Bool :=
  match lit ">".toList s with
  | none => false
  | some s1 =>
    match lit "/dev/sd".toList (wsAny s1) with
    | none => false
    | some s2 =>
      match s2 with
      | c :: _ => 'a' ≤ c && c ≤ 'z'
      | [] => false

/-- `/dd\s+if=.+of=\/dev\//` anchored at `s`. -/
def ddAt (s : Str) : Bool :=
  match ((lit "dd".toList s).bind ws1).bind (lit "if=".toList) with
  | none => false
  | some s1 =>
    match s1 with
    | [] => false
    | c :: rest =>
      isDotChar c && scanDot (fun s2 => (lit "of=/dev/".toList s2).isSome) rest

/-- Regex search: the anchored matcher succeeds at some position. -/
def searchPat (pAt : Str → Bool) (s : Str) : Bool := s.tails.any pAt

/-- The `DENYLIST_PATTERNS` check: the command matches at least one of the
nine high-risk patterns. -/
def matchesDenylist (command : Str) : Bool :=
  searchPat (rmPatAt "/".toList) command ||
  searchPat (rmPatAt "~".toList) command ||
  searchPat (rmPatAt "$HOME".toList) command ||
  searchPat (pipeShAt "curl".toList) command ||
  searchPat (pipeShAt "wget".toList) command ||
  searchPat forkBombAt command ||
  searchPat devSdAt command ||
  containsSub "mkfs.".toList command ||
  searchPat ddAt command

/-- One match step of `/cd\s+([^\s;&|]+)/` anchored at `s`: the captured
target and the input after the whole match. -/
def matchCd (s : Str) : Option (Str × Str) :=
  match (lit "cd".toList s).bind ws1 with
  | none => none
  | some s1 =>
    let t := s1.takeWhile (fun c => !(isJsSpace c || c = ';' || c = '&' || c = '|'))
    if t.isEmpty then none else some (t, s1.drop t.length)

/-- Global scan of the `cd` regex (`exec` loop with `lastIndex` advancing
past each match); fuel is the input length, which always suffices. -/
def cdScanGo : Nat → Str → List Str
  | 0, _ => []
  | _ + 1, [] => []
  | fuel + 1, c :: rest =>
    match matchCd (c :: rest) with
    | some (t, after) => t :: cdScanGo fuel after
    | none => cdScanGo fuel rest

/-- All `cd` targets found in the command text. -/
def cdTargets (s : Str) : List Str := cdScanGo s.length s

/-- `{stdout, stderr, exitCode}` of a completed command. -/
structure BashResult where
  stdout : Str
  stderr : Str
  exitCode : Int
deriving DecidableEq

/-- Observable side effects of `runBash`: processes spawned. -/
inductive BashEvent where
  | spawned (command : Str)
deriving DecidableEq

/-- `runBash(command, cwd)` from `tools/bash.ts`: layer 1 checks the
denylist and throws; layer 2 resolves every `cd` target against the base
cwd and throws when `resolved.startsWith(baseCwd)` fails; only then is the
command executed.  `execSync` (with its try/catch normalisation into a
`BashResult`) is the external collaborator `exec`; the returned event list
records the processes spawned. -/
def runBash (exec : Str → BashResult) (command baseCwd : Str) :
    Except Str BashResult × List BashEvent :=
  if matchesDenylist command then
    (.error ("Command blocked by security policy: ".toList ++ command), [])
  else
    match (cdTargets command).find?
        (fun t => !(baseCwd.isPrefixOf (resolvePath baseCwd t))) with
    | some t =>
      (.error ("Directory escape blocked: cd to '".toList ++ t ++
        "' would leave the working directory.".toList), [])
    | none => (.ok (exec command), [.spawned command])

/-- C3: every command matching a denylist pattern is rejected by `runBash`
with the security-policy error before any process is spawned: the spawn
trace is empty, so the command has no observable side effect. -/
theorem C3_runBash_denylist (exec : Str → BashResult) (command baseCwd : Str)
    (h : matchesDenylist command = true) :
    (runBash exec command baseCwd).1 =
      .error ("Command blocked by security policy: ".toList ++ command) ∧
    (runBash exec command baseCwd).2 = [] := by
  simp [runBash, h]

/-- A stub executor for concrete runs. -/
def execStub : Str → BashResult := fun _ => ⟨[], [], 0⟩

/-- Witness for C3: `rm -rf /` matches the denylist, and `runBash` rejects
it with the security-policy error and spawns nothing. -/
theorem C3_runBash_denylist_witness :
    matchesDenylist "rm -rf /".toList = true ∧
    (runBash execStub "rm -rf /".toList "/home/user".toList).1 =
      .error ("Command blocked by security policy: ".toList ++ "rm -rf /".toList) ∧
    (runBash execStub "rm -rf /".toList "/home/user".toList).2 = [] :=
  ⟨by decide,
    (C3_runBash_denylist execStub "rm -rf /".toList "/home/user".toList (by decide)).1,
    (C3_runBash_denylist execStub "rm -rf /".toList "/home/user".toList (by decide)).2⟩

/-- Modelled from the spec: `p` lies inside the directory subtree rooted at
`root` — it is the root itself or a proper descendant path. -/
def inSubtree (root p : Str) : Bool :=
  p == root || (root ++ "/".toList).isPrefixOf p

/-- C4 (counterexample): with execution root `/foo`, the command
`cd /foobar` has a single `cd` target that resolves to `/foobar`, a path
outside the root's subtree — yet `runBash` does not reject it: the command
is executed (one process spawned).  The code's check is a string-prefix
test `resolved.startsWith(baseCwd)`, and `/foobar` extends `/foo` as a
string while lying outside its subtree. -/
theorem C4_cd_escape_counterexample :
    cdTargets "cd /foobar".toList = ["/foobar".toList] ∧
    resolvePath "/foo".toList "/foobar".toList = "/foobar".toList ∧
    inSubtree "/foo".toList "/foobar".toList = false ∧
    (runBash execStub "cd /foobar".toList "/foo".toList).2 =
      [.spawned "cd /foobar".toList] := by
  decide

/-- C4 (amended): for every command containing a `cd` target whose
resolution against the execution root fails the code's string-prefix check
`resolved.startsWith(baseCwd)`, `runBash` rejects with an error before
executing: nothing is spawned. -/
theorem C4_runBash_cd_prefix_check (exec : Str → BashResult) (command baseCwd : Str)
    (h : ∃ t ∈ cdTargets command,
      baseCwd.isPrefixOf (resolvePath baseCwd t) = false) :
    (∃ msg, (runBash exec command baseCwd).1 = .error msg) ∧
    (runBash exec command baseCwd).2 = [] := by
  unfold runBash
  by_cases hd : matchesDenylist command
  · simp [hd]
  · simp only [hd, Bool.false_eq_true, if_false]
    rcases hf : (cdTargets command).find?
        (fun t => !(baseCwd.isPrefixOf (resolvePath baseCwd t))) with _ | t
    · exfalso
      obtain ⟨t, ht, hesc⟩ := h
      have := List.find?_eq_none.mp hf t ht
      simp [hesc] at this
    · simp

/-- Witness for C4 (amended): with root `/home/user`, the command
`cd /etc; ls` resolves its `cd` target to `/etc`, which fails the prefix
check, so `runBash` errors and spawns nothing. -/
theorem C4_runBash_cd_prefix_check_witness :
    (∃ t ∈ cdTargets "cd /etc; ls".toList,
      "/home/user".toList.isPrefixOf
        (resolvePath "/home/user".toList t) = false) ∧
    (∃ msg,
      (runBash execStub "cd /etc; ls".toList "/home/user".toList).1 = .error msg) ∧
    (runBash execStub "cd /etc; ls".toList "/home/user".toList).2 = [] :=
  ⟨⟨"/etc".toList, by decide, by decide⟩,
    (C4_runBash_cd_prefix_check execStub "cd /etc; ls".toList "/home/user".toList
      ⟨"/etc".toList, by decide, by decide⟩).1,
    (C4_runBash_cd_prefix_check execStub "cd /etc; ls".toList "/home/user".toList
      ⟨"/etc".toList, by decide, by decide⟩).2⟩

/-! ## Retry wrapper (`classifyError` / `withRetry`, utils/retry.ts) -/

/-- Error categories of `classifyError`. -/
inductive ErrClass where
  | auth
  | rate_limit
  | network
  | unknown
deriving DecidableEq

/-- `classifyError(err)`: lowercase the message and test the substring
groups in source order. -/
def classifyError (msg : Str) : ErrClass :=
  let lower := strToLower msg
  if containsSub "401".toList lower || containsSub "invalid api key".toList lower ||
      containsSub "unauthorized".toList lower then .auth
  else if containsSub "429".toList lower || containsSub "rate limit".toList lower ||
      containsSub "too many requests".toList lower then .rate_limit
  else if containsSub "503".toList lower ||
      containsSub "service unavailable".toList lower then .network
  else if containsSub "network".toList lower || containsSub "econnrefused".toList lower ||
      containsSub "econnreset".toList lower || containsSub "etimedout".toList lower ||
      containsSub "fetch failed".toList lower ||
      containsSub "socket hang up".toList lower then .network
  else .unknown

/-- `isRetryable(err)`: only `rate_limit` and `network` are retryable. -/
def isRetryable (msg : Str) : Bool :=
  classifyError msg == .rate_limit || classifyError msg == .network

/-- `BASE_DELAY_MS` from retry.ts. -/
def BASE_DELAY_MS : ℚ := 1000

/-- `Math.round` (half-up, as all the values here are positive). -/
def jsRound (q : ℚ) : ℤ := ⌊q + 1 / 2⌋

/-- The delay computed before the retry for attempt `attempt`:
`Math.round(base + base * 0.25 * (r * 2 - 1))` with
`base = 1000 * 2^(attempt-1)` and `r` the value of `Math.random()`. -/
def retryDelay (attempt : Nat) (r : ℚ) : ℤ :=
  jsRound (BASE_DELAY_MS * 2 ^ (attempt - 1) +
    BASE_DELAY_MS * 2 ^ (attempt - 1) * (1 / 4) * (r * 2 - 1))

/-- `withRetry(fn, onRetry)`: the source's `for` loop over attempts `1..3`
(`MAX_ATTEMPTS = 3`), unrolled.  `fn` gives the attempt outcomes, `rand` the
`Math.random()` draws; the second component collects the `onRetry`
invocations `(attempt, delayMs, error)` in order.  On a non-retryable error,
or when `attempt === MAX_ATTEMPTS`, the error is rethrown with no further
callback.  (No abort signal is passed, matching a plain call.) -/
def withRetry {α : Type} (fn : Nat → Except Str α) (rand : Nat → ℚ) :
    Except Str α × List (Nat × ℤ × Str) :=
  match fn 1 with
  | .ok v => (.ok v, [])
  | .error e1 =>
    if !isRetryable e1 then (.error e1, [])
    else
      match fn 2 with
      | .ok v => (.ok v, [(1, retryDelay 1 (rand 1), e1)])
      | .error e2 =>
        if !isRetryable e2 then (.error e2, [(1, retryDelay 1 (rand 1), e1)])
        else
          match fn 3 with
          | .ok v =>
            (.ok v, [(1, retryDelay 1 (rand 1), e1), (2, retryDelay 2 (rand 2), e2)])
          | .error e3 =>
            (.error e3, [(1, retryDelay 1 (rand 1), e1), (2, retryDelay 2 (rand 2), e2)])

/-- The jittered delay stays within ±25% of the nominal
`1000 * 2^(attempt-1)` backoff. -/
theorem retryDelay_bounds (a : Nat) (r : ℚ) (h0 : 0 ≤ r) (h1 : r < 1) :
    (1000 * 2 ^ (a - 1) - 250 * 2 ^ (a - 1) : ℤ) ≤ retryDelay a r ∧
    retryDelay a r ≤ (1000 * 2 ^ (a - 1) + 250 * 2 ^ (a - 1) : ℤ) := by
  have hb : (0 : ℚ) < 2 ^ (a - 1) := by positivity
  constructor
  · rw [retryDelay, jsRound, BASE_DELAY_MS, Int.le_floor]
    push_cast
    nlinarith
  · rw [retryDelay, jsRound, BASE_DELAY_MS, Int.floor_le_iff]
    push_cast
    nlinarith
/-- The retry-callback trace of `withRetry` has one of three shapes: empty,
one event for attempt 1, or two events for attempts 1 and 2, with the delays
drawn from `retryDelay`. -/
theorem withRetry_events_shape {α : Type} (fn : Nat → Except Str α) (rand : Nat → ℚ) :
    (withRetry fn rand).2 = [] ∨
    (∃ e1, (withRetry fn rand).2 = [(1, retryDelay 1 (rand 1), e1)]) ∨
    (∃ e1 e2, (withRetry fn rand).2 =
      [(1, retryDelay 1 (rand 1), e1), (2, retryDelay 2 (rand 2), e2)]) := by
  unfold withRetry
  rcases h1 : fn 1 with e1 | v1
  · by_cases hr1 : isRetryable e1
    · rcases h2 : fn 2 with e2 | v2
      · by_cases hr2 : isRetryable e2
        · rcases h3 : fn 3 with e3 | v3 <;>
            exact Or.inr (Or.inr ⟨e1, e2, by simp [hr1, hr2]⟩)
        · exact Or.inr (Or.inl ⟨e1, by simp [hr1, hr2]⟩)
      · exact Or.inr (Or.inl ⟨e1, by simp [hr1]⟩)
    · exact Or.inl (by simp [hr1])
  · exact Or.inl (by simp)

/-- C5: for `withRetry` — (1) an error classified `auth` or `unknown` on the
first attempt is surfaced immediately with no retry callback; (2) at most two
retries ever happen (three attempts total); (3) the `k`-th retry callback
carries attempt number `k` and a delay within ±25% of the nominal
`1000 * 2^(k-1)` ms backoff; (4) two `network`-classified failures followed
by a success return the success value and fire the callback exactly twice,
with jittered delays in the bands around the strictly increasing nominal
delays 1000 ms and 2000 ms. -/
theorem C5_withRetry {α : Type} (fn : Nat → Except Str α) (rand : Nat → ℚ)
    (hrand : ∀ n, 0 ≤ rand n ∧ rand n < 1) :
    (∀ e, fn 1 = .error e →
      (classifyError e = .auth ∨ classifyError e = .unknown) →
      withRetry fn rand = (.error e, [])) ∧
    (withRetry fn rand).2.length ≤ 2 ∧
    (∀ i (hi : i < (withRetry fn rand).2.length),
      ((withRetry fn rand).2.get ⟨i, hi⟩).1 = i + 1 ∧
      (1000 * 2 ^ i - 250 * 2 ^ i : ℤ) ≤ ((withRetry fn rand).2.get ⟨i, hi⟩).2.1 ∧
      ((withRetry fn rand).2.get ⟨i, hi⟩).2.1 ≤ (1000 * 2 ^ i + 250 * 2 ^ i : ℤ)) ∧
    (∀ (v : α) e1 e2, fn 1 = .error e1 → fn 2 = .error e2 → fn 3 = .ok v →
      classifyError e1 = .network → classifyError e2 = .network →
      ∃ d1 d2 : ℤ,
        withRetry fn rand = (.ok v, [(1, d1, e1), (2, d2, e2)]) ∧
        750 ≤ d1 ∧ d1 ≤ 1250 ∧ 1500 ≤ d2 ∧ d2 ≤ 2500) := by
  have hd1 := retryDelay_bounds 1 (rand 1) (hrand 1).1 (hrand 1).2
  have hd2 := retryDelay_bounds 2 (rand 2) (hrand 2).1 (hrand 2).2
  norm_num at hd1 hd2
  refine ⟨?_, ?_, ?_, ?_⟩
  · intro e h1 hcl
    have hnr : isRetryable e = false := by
      rcases hcl with h | h <;> simp [isRetryable, h]
    unfold withRetry
    rw [h1]
    simp [hnr]
  · rcases withRetry_events_shape fn rand with h | ⟨e1, h⟩ | ⟨e1, e2, h⟩ <;> simp [h]
  · rcases withRetry_events_shape fn rand with h | ⟨e1, h⟩ | ⟨e1, e2, h⟩ <;> rw [h]
    · intro i hi
      simp at hi
    · intro i hi
      have h0 : i = 0 := by simpa using Nat.lt_one_iff.mp (by simpa using hi)
      subst h0
      refine ⟨rfl, ?_, ?_⟩
      · simpa using hd1.1
      · simpa using hd1.2
    · intro i hi
      have h2 : i < 2 := by simpa using hi
      interval_cases i
      · refine ⟨rfl, ?_, ?_⟩
        · simpa using hd1.1
        · simpa using hd1.2
      · refine ⟨rfl, ?_, ?_⟩
        · simpa using hd2.1
        · simpa using hd2.2
  · intro v e1 e2 h1 h2 h3 hc1 hc2
    have hr1 : isRetryable e1 = true := by simp [isRetryable, hc1]
    have hr2 : isRetryable e2 = true := by simp [isRetryable, hc2]
    unfold withRetry
    rw [h1, h2, h3]
    refine ⟨retryDelay 1 (rand 1), retryDelay 2 (rand 2), by simp [hr1, hr2],
      ?_, ?_, ?_, ?_⟩
    · exact hd1.1
    · exact hd1.2
    · simpa using hd2.1
    · simpa using hd2.2

/-- Attempt outcomes for the C5 witness: two network failures then success. -/
def fnC5 : Nat → Except Str Nat :=
  fun n => if n = 3 then .ok 7 else .error "ECONNRESET".toList

/-- A fixed `Math.random()` draw for the C5 witness. -/
def randC5 : Nat → ℚ := fun _ => 1 / 2

/-- Witness for C5: `ECONNRESET` classifies as `network`; failing with it
twice and succeeding on the third attempt returns the success value and
fires the callback exactly twice, with delays in the 1000 ms and 2000 ms
jitter bands. -/
theorem C5_withRetry_witness :
    classifyError "ECONNRESET".toList = .network ∧
    (∃ d1 d2 : ℤ,
      withRetry fnC5 randC5 =
        (.ok 7, [(1, d1, "ECONNRESET".toList), (2, d2, "ECONNRESET".toList)]) ∧
      750 ≤ d1 ∧ d1 ≤ 1250 ∧ 1500 ≤ d2 ∧ d2 ≤ 2500) :=
  ⟨by decide,
    (C5_withRetry fnC5 randC5
        (fun n => ⟨by norm_num [randC5], by norm_num [randC5]⟩)).2.2.2
      7 "ECONNRESET".toList "ECONNRESET".toList rfl rfl rfl
      (by decide) (by decide)⟩

/-! ## Session store (sessions module of the context/session code)

`JSON.stringify` / `JSON.parse` for messages and for the sessions index are
external runtime services; they enter as function parameters
(`stringifyMsg` / `parseMsg`, `encodeIndex` / `decodeIndex`).  The theorems
assume of them only what the JS runtime guarantees where needed. -/

/-- A `SessionEntry` record of the sessions index. -/
structure SessionEntry where
  sessionId : Str
  firstPrompt : Str
  messageCount : Nat
  created : Str
  modified : Str
  gitBranch : Str
deriving DecidableEq

/-- The sessions index (`version` is the constant 1 and is omitted). -/
structure SessionsIndex where
  entries : List SessionEntry
deriving DecidableEq

/-- A `ModelMessage`, as far as the session store inspects one: its role and
its content when the content is a plain string (`none` models structured,
non-string content). -/
structure Msg where
  role : Str
  contentText : Option Str
deriving DecidableEq

/-- `cwdSlug(cwd)`: replace every `/` by `-`. -/
def cwdSlug (cwd : Str) : Str :=
  cwd.map (fun c => if c = '/' then '-' else c)

/-- `projectDir(cwd)` under `~/.seedcode/projects`. -/
def projectDir (home cwd : Str) : Str :=
  home ++ "/.seedcode/projects/".toList ++ cwdSlug cwd

/-- `indexPath(cwd)`: the per-project `sessions-index.json`. -/
def indexPath (home cwd : Str) : Str :=
  projectDir home cwd ++ "/sessions-index.json".toList

/-- `sessionPath(cwd, sessionId)`: the per-session `{id}.jsonl` file. -/
def sessionPath (home cwd id : Str) : Str :=
  projectDir home cwd ++ "/".toList ++ id ++ ".jsonl".toList

/-- `readIndex(cwd)`: parse the index file, defaulting to an empty index on
any failure (the `try/catch`). -/
def readIndex (decodeIndex : Str → Option SessionsIndex) (home cwd : Str)
    (fs : Fs) : SessionsIndex :=
  match fsRead (indexPath home cwd) fs with
  | some raw =>
    match decodeIndex raw with
    | some idx => idx
    | none => ⟨[]⟩
  | none => ⟨[]⟩

/-- `writeIndex(cwd, index)`: ensure the directory and write the index file. -/
def writeIndex (encodeIndex : SessionsIndex → Str) (home cwd : Str)
    (idx : SessionsIndex) (fs : Fs) : Fs :=
  fsWrite (indexPath home cwd) (encodeIndex idx) (mkdirp (projectDir home cwd) fs)

/-- JS `String.prototype.trim`. -/
def trimStr (s : Str) : Str :=
  ((s.dropWhile isJsSpace).reverse.dropWhile isJsSpace).reverse

/-- `readGitBranch(cwd)`: read `.git/HEAD`, returning the branch name after
`ref: refs/heads/`, or the first 8 characters, or empty on failure. -/
def readGitBranch (cwd : Str) (fs : Fs) : Str :=
  match fsRead (cwd ++ "/.git/HEAD".toList) fs with
  | none => []
  | some raw =>
    let head := trimStr raw
    if "ref: refs/heads/".toList.isPrefixOf head then
      head.drop "ref: refs/heads/".toList.length
    else head.take 8

/-- The filesystem after `saveSession`'s transcript write: the project
directory is ensured and the JSONL transcript (one serialized message per
line) is written to the session path. -/
def sessionFsAfterTranscript (stringifyMsg : Msg → Str) (home cwd id : Str)
    (messages : List Msg) (fs : Fs) : Fs :=
  fsWrite (sessionPath home cwd id)
    ([('\n')].intercalate (messages.map stringifyMsg))
    (mkdirp (projectDir home cwd) fs)

/-- `firstPrompt` of the index entry: the first user message's content when
it is a plain string, truncated to 120 characters, else empty. -/
def sessionFirstPrompt (messages : List Msg) : Str :=
  match messages.find? (fun m => m.role == "user".toList) with
  | some m =>
    match m.contentText with
    | some s => s.take 120
    | none => []
  | none => []

/-- The index update of `saveSession`: replace the existing entry for this
session (keeping its `created` stamp) or push a fresh one. -/
def sessionIndexUpdate (now id firstPrompt : Str) (count : Nat) (branch : Str)
    (idx : SessionsIndex) : SessionsIndex :=
  match idx.entries.findIdx? (fun e => e.sessionId == id) with
  | some i =>
    ⟨idx.entries.set i
      ⟨id, firstPrompt, count,
        (idx.entries.getD i ⟨id, firstPrompt, count, now, now, branch⟩).created,
        now, branch⟩⟩
  | none => ⟨idx.entries ++ [⟨id, firstPrompt, count, now, now, branch⟩]⟩

/-- `saveSession(cwd, sessionId, messages)`: return unchanged on an empty
list; otherwise ensure the project directory, write the JSONL transcript,
and create or update the session's index entry. -/
def saveSession (stringifyMsg : Msg → Str) (encodeIndex : SessionsIndex → Str)
    (decodeIndex : Str → Option SessionsIndex) (now : Str)
    (home cwd id : Str) (messages : List Msg) (fs : Fs) : Fs :=
  if messages = [] then fs
  else
    writeIndex encodeIndex home cwd
      (sessionIndexUpdate now id (sessionFirstPrompt messages) messages.length
        (readGitBranch cwd (sessionFsAfterTranscript stringifyMsg home cwd id messages fs))
        (readIndex decodeIndex home cwd
          (sessionFsAfterTranscript stringifyMsg home cwd id messages fs)))
      (sessionFsAfterTranscript stringifyMsg home cwd id messages fs)

/-- Sequence a list of options (`none` anywhere poisons the result — the
`try/catch` around per-line `JSON.parse`). -/
def listTraverse {β : Type} : List (Option β) → Option (List β)
  | [] => some []
  | none :: _ => none
  | some x :: rest =>
    match listTraverse rest with
    | some xs => some (x :: xs)
    | none => none

/-- `loadSession(cwd, sessionId)`: read the JSONL file, split on newlines,
drop empty lines (`filter(Boolean)`), parse each line; any failure (missing
file or unparsable line) yields the empty list. -/
def loadSession (parseMsg : Str → Option Msg) (home cwd id : Str) (fs : Fs) :
    List Msg :=
  match fsRead (sessionPath home cwd id) fs with
  | none => []
  | some raw =>
    match listTraverse (((raw.splitOn '\n').filter (fun l => l ≠ [])).map parseMsg) with
    | some ms => ms
    | none => []

/-- Lexicographic (code-point) `≤` on strings: the model of the string order
`localeCompare` induces on ISO-8601 timestamps. -/
def strLe (a b : Str) : Bool :=
  match a, b with
  | [], _ => true
  | _ :: _, [] => false
  | c :: as, d :: bs => if c < d then true else if d < c then false else strLe as bs

/-- `listSessions(cwd)`: index entries sorted most-recently-modified first. -/
def listSessions (decodeIndex : Str → Option SessionsIndex) (home cwd : Str)
    (fs : Fs) : List SessionEntry :=
  ((readIndex decodeIndex home cwd fs).entries).mergeSort
    (fun a b => strLe b.modified a.modified)

/-- `resolveSessionId(cwd, prefix)`: the unique session id starting with the
given prefix, else `null` (both for zero and for several matches). -/
def resolveSessionId (decodeIndex : Str → Option SessionsIndex)
    (home cwd pfx : Str) (fs : Fs) : Option Str :=
  match (listSessions decodeIndex home cwd fs).filter
      (fun e => pfx.isPrefixOf e.sessionId) with
  | [m] => some m.sessionId
  | _ => none

/-- `mkdirp` does not change file contents. -/
theorem fsRead_mkdirp (p d : Str) (fs : Fs) : fsRead p (mkdirp d fs) = fsRead p fs := rfl

/-- Reading back a path just written yields the written contents. -/
theorem fsRead_fsWrite_self (p c : Str) (fs : Fs) :
    fsRead p (fsWrite p c fs) = some c := by
  simp [fsRead, fsWrite, List.find?_cons]

/-- Writing one path does not change another. -/
theorem fsRead_fsWrite_ne (p q c : Str) (fs : Fs) (h : p ≠ q) :
    fsRead p (fsWrite q c fs) = fsRead p fs := by
  have hb : (q == p) = false := by simpa using (Ne.symm h)
  simp [fsRead, fsWrite, List.find?_cons, hb]

/-- A session's transcript file and the sessions index file never collide:
the former ends in `l`, the latter in `n`. -/
theorem sessionPath_ne_indexPath (home cwd id : Str) :
    sessionPath home cwd id ≠ indexPath home cwd := by
  intro h
  have h3 := congrArg List.getLast? h
  rw [sessionPath, indexPath,
    List.getLast?_append_of_ne_nil _ (by decide),
    List.getLast?_append_of_ne_nil _ (by decide)] at h3
  exact absurd h3 (by decide)

/-- Sequencing parses over serialized messages recovers the messages, given
per-message inversion. -/
theorem listTraverse_parse_map (parseMsg : Str → Option Msg) (stringifyMsg : Msg → Str)
    (M : List Msg) (h : ∀ m ∈ M, parseMsg (stringifyMsg m) = some m) :
    listTraverse ((M.map stringifyMsg).map parseMsg) = some M := by
  induction M with
  | nil => rfl
  | cons m ms ih =>
    rw [List.map_cons, List.map_cons, h m (List.mem_cons_self m ms), listTraverse,
      ih (fun x hx => h x (List.mem_cons_of_mem m hx))]

/-- C7: saving a non-empty message list and loading it back returns an equal
list, for any message serializer/parser pair with the properties JS
`JSON.stringify`/`JSON.parse` guarantee on the saved messages: parsing
inverts serialization, and serialized messages are non-empty and contain no
raw newline. -/
theorem C7_session_roundtrip
    (stringifyMsg : Msg → Str) (parseMsg : Str → Option Msg)
    (encodeIndex : SessionsIndex → Str) (decodeIndex : Str → Option SessionsIndex)
    (now home cwd id : Str) (M : List Msg) (fs : Fs)
    (hinv : ∀ m ∈ M, parseMsg (stringifyMsg m) = some m)
    (hne : ∀ m ∈ M, stringifyMsg m ≠ [])
    (hnl : ∀ m ∈ M, '\n' ∉ stringifyMsg m)
    (hM : M ≠ []) :
    loadSession parseMsg home cwd id
      (saveSession stringifyMsg encodeIndex decodeIndex now home cwd id M fs) = M := by
  rw [saveSession, if_neg hM, loadSession, writeIndex,
    fsRead_fsWrite_ne _ _ _ _ (sessionPath_ne_indexPath home cwd id),
    fsRead_mkdirp, sessionFsAfterTranscript, fsRead_fsWrite_self]
  dsimp only
  rw [List.splitOn_intercalate (M.map stringifyMsg) '\n'
      (by
        intro l hl
        obtain ⟨m, hm, rfl⟩ := List.mem_map.mp hl
        exact hnl m hm)
      (by
        intro hmap
        exact hM (List.map_eq_nil_iff.mp hmap)),
    List.filter_eq_self.mpr
      (by
        intro l hl
        obtain ⟨m, hm, rfl⟩ := List.mem_map.mp hl
        simpa using hne m hm),
    listTraverse_parse_map parseMsg stringifyMsg M hinv]

/-- C10: saving an empty message list is a no-op — the filesystem (transcript
files, sessions index entries, directories) is returned unchanged. -/
theorem C10_saveSession_empty_noop
    (stringifyMsg : Msg → Str) (encodeIndex : SessionsIndex → Str)
    (decodeIndex : Str → Option SessionsIndex) (now home cwd id : Str) (fs : Fs) :
    saveSession stringifyMsg encodeIndex decodeIndex now home cwd id [] fs = fs := by
  rw [saveSession, if_pos rfl]

/-- A concrete user message for the C7 witness. -/
def msgA : Msg := ⟨"user".toList, some "hello".toList⟩

/-- A concrete assistant message for the C7 witness. -/
def msgB : Msg := ⟨"assistant".toList, some "hi there".toList⟩

/-- A concrete serializer for the C7 witness (injective on the saved list). -/
def stringifyW : Msg → Str := fun m => if m = msgA then "A".toList else "B".toList

/-- The matching parser for the C7 witness. -/
def parseW : Str → Option Msg :=
  fun s => if s = "A".toList then some msgA else some msgB

/-- A trivial index encoder for the C7 witness. -/
def encodeW : SessionsIndex → Str := fun _ => []

/-- A trivial index decoder for the C7 witness. -/
def decodeW : Str → Option SessionsIndex := fun _ => none

/-- Witness for C7: saving the concrete two-message list into an empty
filesystem and loading it back returns the same list. -/
theorem C7_session_roundtrip_witness :
    loadSession parseW "/home/u".toList "/proj".toList "abc".toList
      (saveSession stringifyW encodeW decodeW "2026-01-01".toList
        "/home/u".toList "/proj".toList "abc".toList [msgA, msgB] ⟨[], []⟩) =
      [msgA, msgB] :=
  C7_session_roundtrip stringifyW parseW encodeW decodeW "2026-01-01".toList
    "/home/u".toList "/proj".toList "abc".toList [msgA, msgB] ⟨[], []⟩
    (by decide) (by decide) (by decide) (by decide)

/-- C8: `resolveSessionId` returns the unique stored session id extending
the prefix when the index holds exactly one match; it returns `null` both
when no stored id matches and when two or more do (never an arbitrary
pick) — the same unresolvable outcome in both cases. -/
theorem C8_resolveSessionId (decodeIndex : Str → Option SessionsIndex)
    (home cwd pfx : Str) (fs : Fs) :
    (∀ m, ((readIndex decodeIndex home cwd fs).entries).filter
        (fun e => pfx.isPrefixOf e.sessionId) = [m] →
      resolveSessionId decodeIndex home cwd pfx fs = some m.sessionId) ∧
    (((readIndex decodeIndex home cwd fs).entries).filter
        (fun e => pfx.isPrefixOf e.sessionId) = [] →
      resolveSessionId decodeIndex home cwd pfx fs = none) ∧
    (2 ≤ (((readIndex decodeIndex home cwd fs).entries).filter
        (fun e => pfx.isPrefixOf e.sessionId)).length →
      resolveSessionId decodeIndex home cwd pfx fs = none) := by
  have hperm :
      ((listSessions decodeIndex home cwd fs).filter
        (fun e => pfx.isPrefixOf e.sessionId)).Perm
      (((readIndex decodeIndex home cwd fs).entries).filter
        (fun e => pfx.isPrefixOf e.sessionId)) :=
    List.Perm.filter _ (List.mergeSort_perm _ _)
  refine ⟨?_, ?_, ?_⟩
  · intro m hm
    have hsf := List.perm_singleton.mp (hm ▸ hperm)
    rw [resolveSessionId, hsf]
  · intro hm
    have hsf : (listSessions decodeIndex home cwd fs).filter
        (fun e => pfx.isPrefixOf e.sessionId) = [] :=
      List.Perm.eq_nil (hm ▸ hperm)
    rw [resolveSessionId, hsf]
  · intro hlen
    have hl2 : 2 ≤ ((listSessions decodeIndex home cwd fs).filter
        (fun e => pfx.isPrefixOf e.sessionId)).length := by
      rw [hperm.length_eq]
      exact hlen
    rcases hsf : (listSessions decodeIndex home cwd fs).filter
        (fun e => pfx.isPrefixOf e.sessionId) with _ | ⟨a, _ | ⟨b, t⟩⟩
    · rw [resolveSessionId, hsf]
    · rw [hsf] at hl2
      simp at hl2
    · rw [resolveSessionId, hsf]

/-- First index entry for the C8 witness. -/
def entryW1 : SessionEntry :=
  ⟨"aaaabbbb-1111".toList, [], 1, "2026-01-01T00:00:00".toList,
    "2026-01-02T00:00:00".toList, []⟩

/-- Second index entry for the C8 witness, sharing an 8-character prefix
with the first. -/
def entryW2 : SessionEntry :=
  ⟨"aaaabbbb-2222".toList, [], 1, "2026-01-01T00:00:00".toList,
    "2026-01-03T00:00:00".toList, []⟩

/-- Index decoder for the C8 witness: the stored index holds both entries. -/
def decodeIdxW : Str → Option SessionsIndex := fun _ => some ⟨[entryW1, entryW2]⟩

/-- Filesystem for the C8 witness: the index file exists. -/
def fsW8 : Fs :=
  ⟨[(indexPath "/home/u".toList "/proj".toList, "stored-index".toList)], []⟩

/-- Witness for C8: a 10-character prefix unique to the first session
resolves to its full id; the shared 8-character prefix and an unmatched
prefix both resolve to `null`. -/
theorem C8_resolveSessionId_witness :
    resolveSessionId decodeIdxW "/home/u".toList "/proj".toList
      "aaaabbbb-1".toList fsW8 = some "aaaabbbb-1111".toList ∧
    resolveSessionId decodeIdxW "/home/u".toList "/proj".toList
      "aaaabbbb".toList fsW8 = none ∧
    resolveSessionId decodeIdxW "/home/u".toList "/proj".toList
      "cccc".toList fsW8 = none :=
  ⟨(C8_resolveSessionId decodeIdxW "/home/u".toList "/proj".toList
      "aaaabbbb-1".toList fsW8).1 entryW1 (by decide),
    (C8_resolveSessionId decodeIdxW "/home/u".toList "/proj".toList
      "aaaabbbb".toList fsW8).2.2 (by decide),
    (C8_resolveSessionId decodeIdxW "/home/u".toList "/proj".toList
      "cccc".toList fsW8).2.1 (by decide)⟩

/-! ## Read tool deny-list (`isDenied` / `readFile`, tools/read.ts) -/

/-- The minimatch pattern `**/name/**` (with `dot: true`): `name` occurs as
a non-final path segment — the leading `**` matches any run of segments and
the trailing `/**` requires at least one further segment. -/
def hasInteriorSeg (name : Str) (segs : List Str) : Bool :=
  match segs with
  | [] => false
  | s :: rest => (s == name && !rest.isEmpty) || hasInteriorSeg name rest

/-- The minimatch pattern `**/pat*` (with `dot: true`): the final path
segment starts with `pat`. -/
def lastSegStartsWith (pat : Str) (segs : List Str) : Bool :=
  match segs.getLast? with
  | some l => pat.isPrefixOf l
  | none => false

/-- `isDenied(filePath)`: make the path home-relative
(`abs.slice(home.length + 1)` when `abs` starts with the home directory),
split into segments, and test the `DENY_LIST` patterns `**/.ssh/**`,
`**/.aws/**`, `**/.config/**`, `**/.env*`. -/
def isDenied (home abs : Str) : Bool :=
  hasInteriorSeg ".ssh".toList
    (splitSlash (if home.isPrefixOf abs then abs.drop (home.length + 1) else abs)) ||
  hasInteriorSeg ".aws".toList
    (splitSlash (if home.isPrefixOf abs then abs.drop (home.length + 1) else abs)) ||
  hasInteriorSeg ".config".toList
    (splitSlash (if home.isPrefixOf abs then abs.drop (home.length + 1) else abs)) ||
  lastSegStartsWith ".env".toList
    (splitSlash (if home.isPrefixOf abs then abs.drop (home.length + 1) else abs))

/-- `LARGE_FILE_WARN_LINES` from tools/read.ts. -/
def LARGE_FILE_WARN_LINES : Nat := 500

/-- The `ReadResult` returned by the read tool. -/
structure ReadResult where
  content : Str
  lineCount : Nat
  warning : Option Str
deriving DecidableEq

/-- The `{ error }` object every tool error is normalised into. -/
structure ToolError where
  error : Str
deriving DecidableEq

/-- `readFile(filePath)`: resolve the path, enforce the deny-list before any
filesystem access, then require existence and file-ness, read the contents,
and attach the large-file warning. -/
def readFile (fs : Fs) (home cwd filePath : Str) : Except Str ReadResult :=
  if isDenied home (resolvePath cwd filePath) then
    .error ("Access denied: ".toList ++ filePath ++
      " is in the restricted path list.".toList)
  else
    match fsRead (resolvePath cwd filePath) fs with
    | some content =>
      .ok ⟨content, (content.splitOn '\n').length,
        if LARGE_FILE_WARN_LINES < (content.splitOn '\n').length then
          some ("Large file: ".toList ++ natStr (content.splitOn '\n').length ++
            " lines. Consider reading a specific line range if you only need part of it.".toList)
        else none⟩
    | none =>
      if fs.dirs.contains (resolvePath cwd filePath) then
        .error ("Not a file: ".toList ++ filePath)
      else .error ("File not found: ".toList ++ filePath)

/-- The read tool's `execute` from the tool registry: call `readFile` and
normalise a thrown error into `{ error }`.  The read tool has no
confirmation hook at all — its outcome depends only on the path and the
filesystem. -/
def readToolExecute (fs : Fs) (home cwd filePath : Str) : ReadResult ⊕ ToolError :=
  match readFile fs home cwd filePath with
  | .ok r => .inl r
  | .error msg => .inr ⟨msg⟩

/-- C9: for every filesystem state and every path matching the read
deny-list, `readFile` raises the access-denied error — it never returns the
file's contents — and the read tool surfaces exactly that error object; the
block is unconditional since no confirmation enters the read path. -/
theorem C9_readFile_denylist (fs : Fs) (home cwd filePath : Str)
    (h : isDenied home (resolvePath cwd filePath) = true) :
    readFile fs home cwd filePath =
      .error ("Access denied: ".toList ++ filePath ++
        " is in the restricted path list.".toList) ∧
    readToolExecute fs home cwd filePath =
      .inr ⟨"Access denied: ".toList ++ filePath ++
        " is in the restricted path list.".toList⟩ := by
  have h1 : readFile fs home cwd filePath =
      .error ("Access denied: ".toList ++ filePath ++
        " is in the restricted path list.".toList) := by
    rw [readFile, if_pos h]
  exact ⟨h1, by rw [readToolExecute, h1]⟩

/-- Filesystem for the C9 witness: the denied file exists and has secret
contents. -/
def fsW9 : Fs := ⟨[("/home/u/.ssh/id_rsa".toList, "SECRETKEY".toList)], []⟩

/-- Witness for C9: reading `.ssh/id_rsa` under the home directory is denied
even though the file exists — both `readFile` and the read tool return the
access-denied error, not the contents. -/
theorem C9_readFile_denylist_witness :
    isDenied "/home/u".toList
      (resolvePath "/home/u".toList ".ssh/id_rsa".toList) = true ∧
    readFile fsW9 "/home/u".toList "/home/u".toList ".ssh/id_rsa".toList =
      .error ("Access denied: ".toList ++ ".ssh/id_rsa".toList ++
        " is in the restricted path list.".toList) ∧
    readToolExecute fsW9 "/home/u".toList "/home/u".toList ".ssh/id_rsa".toList =
      .inr ⟨"Access denied: ".toList ++ ".ssh/id_rsa".toList ++
        " is in the restricted path list.".toList⟩ :=
  ⟨by decide,
    (C9_readFile_denylist fsW9 "/home/u".toList "/home/u".toList
      ".ssh/id_rsa".toList (by decide)).1,
    (C9_readFile_denylist fsW9 "/home/u".toList "/home/u".toList
      ".ssh/id_rsa".toList (by decide)).2⟩
